import Mathlib

/-!
Shallow embedding of the Habit Analytics Engine
(`data_processing.py`, `ml_utils.py`) over exact rationals.

Modelling conventions:
* Python floats are modelled as `ℚ` (exact arithmetic); `round(x, 2)` is
  modelled as `round2` below (round-half-up on exact rationals).
* Python text values that the code inspects character by character
  (`mood`, `activities`) are modelled as `List Char`; `str.lower()` is
  `List.map Char.toLower` (ASCII case mapping).
* Dates are modelled as integer day indices with day `0` = 1970-01-01
  (a Thursday); weekday numbering follows pandas (Monday = 0).
* Fallible/absent values are `Option`; the Python tuple results
  `(clusters, km, error)` and `(models, error)` are tuples of `Option`s.
-/

/-- `round(x, 2)`: round to 2 decimal places (ties round half-up here, on
exact rationals). -/
def round2 (q : ℚ) : ℚ := (round (q * 100) : ℤ) / 100

/-- The mood strings awarded a bonus in
`data_processing.compute_productivity_score`, line 16:
`("good", "great", "happy", "energized")`. -/
def bonusMoods : List (List Char) :=
  ["good".data, "great".data, "happy".data, "energized".data]

/-- `data_processing.compute_productivity_score`, line 10:
`min(row.get("study_hours", 0), 12) / 12 * 10`. -/
def studyComponent (study_hours : ℚ) : ℚ := min study_hours 12 / 12 * 10

/-- `data_processing.compute_productivity_score`, line 13:
`max(0, 10 - abs(7.5 - sleep) * 1.5)`. -/
def sleepComponent (sleep_hours : ℚ) : ℚ := max 0 (10 - |7.5 - sleep_hours| * 1.5)

/-- `data_processing.compute_productivity_score`, line 16:
`1.0 if mood and mood.lower() in ("good", "great", "happy", "energized") else 0.0`.
A Python string is truthy iff it is nonempty. -/
def moodBonus (mood : List Char) : ℚ :=
  if mood ≠ [] ∧ mood.map Char.toLower ∈ bonusMoods then 1.0 else 0.0

/-- `data_processing.compute_productivity_score` (lines 7-19), as a function of
the three record fields it reads (after the caller's defaulting of absent
`sleep_hours`/`study_hours` to `0`). -/
def compute_productivity_score (sleep_hours study_hours : ℚ) (mood : List Char) : ℚ :=
  round2 (0.6 * studyComponent study_hours + 0.35 * sleepComponent sleep_hours
    + 2.0 * moodBonus mood)

/-- The scoring formula exactly as the specification's words state it:
`round(0.6 * (min(study_hours, 12) / 12 * 10)
  + 0.35 * max(0, 10 - |7.5 - sleep_hours| * 1.5)
  + 2.0 * (1.0 if the mood, case-insensitively, is one of
  {good, great, happy, energized} else 0.0), 2)`. -/
def scoreClaimFormula (sleep_hours study_hours : ℚ) (mood : List Char) : ℚ :=
  round2 (0.6 * (min study_hours 12 / 12 * 10)
    + 0.35 * max 0 (10 - |7.5 - sleep_hours| * 1.5)
    + 2.0 * (if mood.map Char.toLower ∈ bonusMoods then 1.0 else 0.0))

example : compute_productivity_score 7.5 0 "happy".data = 5.5 := by
  have hm : moodBonus "happy".data = 1.0 := by simp +decide [moodBonus]
  norm_num [compute_productivity_score, studyComponent, sleepComponent, hm,
    round2, round_eq]
example : compute_productivity_score 7.5 12 "good".data = 11.5 := by
  have hm : moodBonus "good".data = 1.0 := by simp +decide [moodBonus]
  norm_num [compute_productivity_score, studyComponent, sleepComponent, hm,
    round2, round_eq]

/-! ## Records and the Normalizer (`data_processing.get_dataframe`) -/

/-- A raw stored record as the Normalizer receives it, after the
`pd.to_numeric(..., errors="coerce")` view: a numeric field is either a
parsed number or absent (`none` covers both SQL NULL and unparsable text,
which coercion turns into NaN). `day` is the `date` as a day index. -/
structure RawRecord where
  day : ℤ
  sleep_hours : Option ℚ
  study_hours : Option ℚ
  activities : List Char
  mood : List Char
  water_intake : Option ℚ
  productivity_score : Option ℚ
deriving DecidableEq

/-- A normalized record: `sleep_hours`, `study_hours` defaulted to `0`,
`productivity_score` always present; `water_intake` left absent when
absent (`to_numeric` without `fillna`). -/
structure Rec where
  day : ℤ
  sleep_hours : ℚ
  study_hours : ℚ
  activities : List Char
  mood : List Char
  water_intake : Option ℚ
  productivity_score : ℚ
deriving DecidableEq

/-- The per-record effect of `data_processing.get_dataframe` (lines 31-41):
`fillna(0.0)` on `sleep_hours`/`study_hours`, keep `water_intake` as coerced,
and backfill `productivity_score` by `compute_productivity_score` exactly when
it is absent (line 41 applies the scorer to the already-defaulted row). -/
def normalizeRecord (r : RawRecord) : Rec :=
  let sleep := r.sleep_hours.getD 0
  let study := r.study_hours.getD 0
  { day := r.day
    sleep_hours := sleep
    study_hours := study
    activities := r.activities
    mood := r.mood
    water_intake := r.water_intake
    productivity_score :=
      match r.productivity_score with
      | some s => s
      | none => compute_productivity_score sleep study r.mood }

/-- `data_processing.get_dataframe` (lines 21-42): empty input gives the empty
dataset (lines 23-24); otherwise each row is normalized independently (the
column-wise `fillna`/`apply` calls act row by row). -/
def get_dataframe (rows : List RawRecord) : List Rec :=
  match rows with
  | [] => []
  | _ => rows.map normalizeRecord

/-! ## Calendar rollups (`weekly_summary`, `monthly_summary`)

pandas `df.set_index("date").resample(freq).agg(...)` groups the records into
a *regular* grid of calendar buckets running from the first record's bucket to
the last record's bucket; buckets inside that span that contain no record
still produce a row (`mean` of an empty bucket is NaN, `sum` is `0`). -/

/-- Smallest element of a list of integers (`0` for `[]`, which no caller
reaches). -/
def listMin : List ℤ → ℤ
  | [] => 0
  | x :: xs => xs.foldl min x

/-- Largest element of a list of integers (`0` for `[]`). -/
def listMax : List ℤ → ℤ
  | [] => 0
  | x :: xs => xs.foldl max x

/-- The label of the `"W"` (weekly, week ending Sunday) bucket containing day
`d`: the next Sunday on or after `d`. Day 0 = 1970-01-01 is a Thursday, so
`(d + 3) % 7` is the pandas weekday number (Monday = 0, Sunday = 6). -/
def weekLabel (d : ℤ) : ℤ := d + (6 - (d + 3) % 7)

/-- The calendar month containing day `d`, as an absolute month index
`year * 12 + (month - 1)`; computed with the standard civil-from-days
algorithm for the proleptic Gregorian calendar. This is the bucket key of the
`"M"` (monthly) resampling rule. -/
def monthIdxOfDay (d : ℤ) : ℤ :=
  let z := d + 719468
  let era := z / 146097
  let doe := z - era * 146097
  let yoe := (doe - doe / 1460 + doe / 36524 - doe / 146096) / 365
  let y := yoe + era * 400
  let doy := doe - (365 * yoe + yoe / 4 - yoe / 100)
  let mp := (5 * doy + 2) / 153
  let m := mp + (if mp < 10 then 3 else -9)
  let yr := y + (if m ≤ 2 then 1 else 0)
  yr * 12 + (m - 1)

/-- One output row of a rollup: the bucket key and the three aggregates
`mean(sleep_hours)`, `sum(study_hours)`, `mean(productivity_score)`, each
rounded to 2 decimals. An empty bucket's mean is NaN in pandas, modelled as
`none`; its sum is `0`. -/
structure SummaryRow where
  bucket : ℤ
  sleepMean : Option ℚ
  studySum : ℚ
  scoreMean : Option ℚ
deriving DecidableEq

/-- `mean` aggregation of pandas followed by `.round(2)`: NaN (empty input)
stays NaN, otherwise the rounded arithmetic mean. -/
def meanOpt (xs : List ℚ) : Option ℚ :=
  match xs with
  | [] => none
  | _ => some (round2 (xs.sum / xs.length))

/-- The aggregates of the bucket labelled `w` under bucketing key `key`. -/
def bucketRow (key : Rec → ℤ) (df : List Rec) (w : ℤ) : SummaryRow :=
  let sub := df.filter fun r => key r = w
  { bucket := w
    sleepMean := meanOpt (sub.map (·.sleep_hours))
    studySum := round2 (sub.map (·.study_hours)).sum
    scoreMean := meanOpt (sub.map (·.productivity_score)) }

/-- The regular bucket grid of `resample`: labels `lo, lo + step, ...` up to
and including `hi` (when `step ∣ hi - lo`, as is the case for the callers). -/
def bucketGrid (step : ℕ) (lo hi : ℤ) : List ℤ :=
  (List.range ((hi - lo).toNat / step + 1)).map fun i : ℕ => lo + (step : ℤ) * (i : ℤ)

/-- `df.set_index("date").resample(freq).agg({...}).round(2)` for a bucketing
key whose labels are `step` apart: empty input gives an empty table (the
`df.empty` guard, lines 45-46 / 55-56), otherwise one row per grid bucket
from the smallest to the largest label present. -/
def resampleBy (key : Rec → ℤ) (step : ℕ) (df : List Rec) : List SummaryRow :=
  match df with
  | [] => []
  | _ =>
    let ks := df.map key
    (bucketGrid step (listMin ks) (listMax ks)).map (bucketRow key df)

/-- `data_processing.weekly_summary` (lines 44-52). -/
def weekly_summary (df : List Rec) : List SummaryRow :=
  resampleBy (fun r => weekLabel r.day) 7 df

/-- `data_processing.monthly_summary` (lines 54-62). -/
def monthly_summary (df : List Rec) : List SummaryRow :=
  resampleBy (fun r => monthIdxOfDay r.day) 1 df

/-! ## Activity heatmap (`data_processing.activity_heatmap_data`) -/

/-- Python `str.strip()`'s default whitespace set (ASCII part). -/
def isStripChar (c : Char) : Bool :=
  c = ' ' || c = '\t' || c = '\n' || c = '\r'

/-- Python `str.strip()`: drop leading and trailing whitespace. -/
def pyStrip (t : List Char) : List Char :=
  ((t.dropWhile isStripChar).reverse.dropWhile isStripChar).reverse

/-- Line 74's `.replace(";", ",")` at the character level. -/
def replSemi (c : Char) : Char := if c = ';' then ',' else c

/-- Python `str.split(",")`, accumulator form: cut at every comma, keeping
empty pieces. -/
def splitCommaAux : List Char → List Char → List (List Char)
  | [], acc => [acc.reverse]
  | c :: cs, acc =>
    if c = ',' then acc.reverse :: splitCommaAux cs []
    else splitCommaAux cs (c :: acc)

/-- Python `str.split(",")`. -/
def splitComma (s : List Char) : List (List Char) := splitCommaAux s []

/-- Splitting at every `,` *or* `;` in one pass — the spec's words
("split `activities` on `,` and `;`"), to be compared with the code's
replace-then-split. -/
def splitSepsAux : List Char → List Char → List (List Char)
  | [], acc => [acc.reverse]
  | c :: cs, acc =>
    if c = ',' ∨ c = ';' then acc.reverse :: splitSepsAux cs []
    else splitSepsAux cs (c :: acc)

/-- Spec-side splitter on both separators. -/
def splitSeps (s : List Char) : List (List Char) := splitSepsAux s []

/-- Line 76's `a.strip().lower()`. -/
def cleanToken (t : List Char) : List Char := (pyStrip t).map Char.toLower

/-- The activity tokens of one `activities` string as the code computes them
(lines 74-77): replace `;` by `,`, split on `,`, strip and lowercase each
piece, keep the nonempty ones. -/
def tokens (s : List Char) : List (List Char) :=
  ((splitComma (s.map replSemi)).map cleanToken).filter fun t => t ≠ []

/-- The same tokens as the specification words them: split on `,` and `;`,
trim and lowercase, discard empties. -/
def tokensSpec (s : List Char) : List (List Char) :=
  ((splitSeps s).map cleanToken).filter fun t => t ≠ []

/-- The fixed weekday column order of line 85. -/
def weekdayOrder : List String :=
  ["Monday", "Tuesday", "Wednesday", "Thursday", "Friday", "Saturday", "Sunday"]

/-- `df["date"].dt.day_name()` for a day index (day 0 = 1970-01-01, a
Thursday). -/
def dayName (d : ℤ) : String := weekdayOrder.getD ((d + 3) % 7).toNat ""

/-- The `(weekday, activity)` pair list built by the loop of lines 72-78. -/
def heatPairs : List Rec → List (String × List Char)
  | [] => []
  | r :: rs => ((tokens r.activities).map fun t => (dayName r.day, t)) ++ heatPairs rs

/-- The pair list as the spec words it (spec-side tokenizer). -/
def heatPairsSpec : List Rec → List (String × List Char)
  | [] => []
  | r :: rs => ((tokensSpec r.activities).map fun t => (dayName r.day, t)) ++ heatPairsSpec rs

/-- Lexicographic order on tokens by character code — pandas sorts the pivot
index of strings this way. -/
def tokLe : List Char → List Char → Bool
  | [], _ => true
  | _ :: _, [] => false
  | a :: as, b :: bs =>
    if a < b then true
    else if b < a then false
    else tokLe as bs

/-- Insertion sort by `tokLe`. -/
def insertTok (a : List Char) : List (List Char) → List (List Char)
  | [] => [a]
  | b :: bs => if tokLe a b then a :: b :: bs else b :: insertTok a bs

/-- Sort a token list by `tokLe`. -/
def sortToks : List (List Char) → List (List Char)
  | [] => []
  | a :: as => insertTok a (sortToks as)

/-- The pivot table of `activity_heatmap_data`: `cols` are the weekday
columns in Monday→Sunday order (only weekdays present), `rows` pairs each
activity token with its per-column counts. -/
structure Heatmap where
  cols : List String
  rows : List (List Char × List ℕ)
deriving DecidableEq

/-- The distinct activity tokens of a pair list in pandas pivot order
(sorted ascending). -/
def pivotActs (ps : List (String × List Char)) : List (List Char) :=
  sortToks (ps.map (·.2)).dedup

/-- The weekday columns present in a pair list, reordered Monday→Sunday
(lines 85-87). -/
def pivotCols (ps : List (String × List Char)) : List String :=
  weekdayOrder.filter fun w => (ps.map (·.1)).contains w

/-- The pivot cell: how many `(weekday, activity)` pairs hit this cell
(`aggfunc=len`, `fill_value=0`). -/
def pivotCell (ps : List (String × List Char)) (w : String) (a : List Char) : ℕ :=
  ps.countP fun p => p.1 = w ∧ p.2 = a

/-- `data_processing.activity_heatmap_data` (lines 64-88): empty dataset or
no activity tokens give an explicitly empty table; otherwise the
activity × weekday count pivot. -/
def activity_heatmap_data (df : List Rec) : Heatmap :=
  match df with
  | [] => ⟨[], []⟩
  | _ =>
    let ps := heatPairs df
    match ps with
    | [] => ⟨[], []⟩
    | _ =>
      let cols := pivotCols ps
      ⟨cols, (pivotActs ps).map fun a => (a, cols.map fun w => pivotCell ps w a)⟩

/-! ## Clusterer (`ml_utils.get_clusters`)

The source delegates the clustering itself to
`KMeans(n_clusters=k, random_state=42, n_init=10).fit_predict`. With
`random_state` fixed, that call is a deterministic function of the feature
matrix; it is modelled here as deterministic Lloyd iteration (cap 300, the
sklearn default) from a deterministic choice of initial centroids standing in
for the seeded initialization. The claims checked below depend only on the
data-size guard and on determinism, not on which partition is produced. -/

/-- A feature point `(sleep_hours, study_hours, productivity_score)`
(line 15). -/
abbrev Pt := ℚ × ℚ × ℚ

/-- Squared Euclidean distance on the three raw features. -/
def dist2 (p q : Pt) : ℚ :=
  (p.1 - q.1) ^ 2 + (p.2.1 - q.2.1) ^ 2 + (p.2.2 - q.2.2) ^ 2

/-- Index of the nearest centroid (first wins ties), accumulator form. -/
def nearestAux (p : Pt) : List Pt → ℕ → ℕ → ℚ → ℕ
  | [], _, besti, _ => besti
  | c :: cs, i, besti, bestd =>
    if dist2 p c < bestd then nearestAux p cs (i + 1) i (dist2 p c)
    else nearestAux p cs (i + 1) besti bestd

/-- Index of the nearest centroid among `cs` (0 for no centroids). -/
def nearestIdx (cs : List Pt) (p : Pt) : ℕ :=
  match cs with
  | [] => 0
  | c :: cs0 => nearestAux p cs0 1 0 (dist2 p c)

/-- Mean of a point list (componentwise). -/
def meanPt (ps : List Pt) : Pt :=
  ((ps.map (·.1)).sum / ps.length,
   (ps.map (·.2.1)).sum / ps.length,
   (ps.map (·.2.2)).sum / ps.length)

/-- One Lloyd update: each centroid becomes the mean of the points assigned
to it (a centroid with no points keeps its position — a deterministic
stand-in for sklearn's empty-cluster relocation, which no claim exercises). -/
def updateCentroids (pts : List Pt) (cs : List Pt) : List Pt :=
  let asg := pts.map (nearestIdx cs)
  (List.range cs.length).map fun i =>
    let mine := ((pts.zip asg).filter fun pa => pa.2 = i).map (·.1)
    match mine with
    | [] => cs.getD i (0, 0, 0)
    | _ => meanPt mine

/-- Lloyd iteration with a fuel cap, stopping when the centroids stabilize. -/
def lloyd (pts : List Pt) : ℕ → List Pt → List Pt
  | 0, cs => cs
  | fuel + 1, cs =>
    let cs2 := updateCentroids pts cs
    if cs2 = cs then cs else lloyd pts fuel cs2

/-- The final centers of the seeded k-means fit: deterministic initial
centroids (the first `k` points), then capped Lloyd iteration. -/
def kmeansCenters (k : ℕ) (pts : List Pt) : List Pt :=
  lloyd pts 300 (pts.take k)

/-- The labeling heuristic of lines 23-32, applied to one cluster center
`(sleep_c, study_c, score_c)` — `sleep_c` is not consulted. -/
def descriptorOf (c : Pt) : String :=
  if 6 ≤ c.2.1 ∧ 6 ≤ c.2.2 then "high-focus"
  else if c.2.2 < 4 ∧ c.2.1 < 3 then "low-energy"
  else if c.2.2 < 5 ∧ 3 ≤ c.2.1 then "burnout-risk"
  else "balanced"

/-- `ml_utils.get_clusters` (lines 7-37): the `(clusters, km_model,
error_message)` triple, with the km model represented by its final cluster
centers. Fewer than 3 records short-circuits to the insufficient-data
message (lines 13-14) before any feature matrix is built. -/
def get_clusters (df : List Rec) :
    Option (List String) × Option (List Pt) × Option String :=
  if df.length < 3 then
    (none, none, some "Not enough data to form clusters (need at least 3 logs).")
  else
    let pts := df.map fun r => (r.sleep_hours, r.study_hours, r.productivity_score)
    let k := min 4 (max 2 (df.length / 3))
    let centers := kmeansCenters k pts
    let labels := pts.map fun p => descriptorOf (centers.getD (nearestIdx centers p) (0, 0, 0))
    (some labels, some centers, none)

/-! ## Forecaster (`ml_utils.train_regression`, `ml_utils.predict_next`)

`sklearn.linear_model.LinearRegression` is modelled as ordinary least
squares with an intercept, solved through the normal equations by Gaussian
elimination over `ℚ` (a rank-deficient system gets `0` for its free
coordinates — a deterministic stand-in for the library's minimum-norm
least-squares solution, which no claim exercises). -/

/-- Dot product of coefficient and feature lists. -/
def dotQ (xs ys : List ℚ) : ℚ := (List.zipWith (· * ·) xs ys).sum

/-- Pick the first row with a nonzero leading entry; return it and the
remaining rows (in order). -/
def pickPivot : List (List ℚ) → Option (List ℚ) × List (List ℚ)
  | [] => (none, [])
  | r :: rs =>
    if r.headD 0 ≠ 0 then (some r, rs)
    else
      let pr := pickPivot rs
      (pr.1, r :: pr.2)

/-- Eliminate the leading column of `r` using pivot row `piv`, dropping that
column. -/
def elimWith (piv r : List ℚ) : List ℚ :=
  (List.zipWith (fun x y => y - r.headD 0 / piv.headD 1 * x) piv r).tail

/-- Solve an augmented linear system (each row: coefficients then the
right-hand side) by Gaussian elimination with back-substitution; `fuel` is
the number of unknowns. A column with no pivot yields `0` for that unknown. -/
def gaussSolve : ℕ → List (List ℚ) → List ℚ
  | 0, _ => []
  | n + 1, rows =>
    match pickPivot rows with
    | (none, rest) => 0 :: gaussSolve n (rest.map fun r => r.tail)
    | (some piv, rest) =>
      let xs := gaussSolve n (rest.map (elimWith piv))
      let b := (piv.tail.getLast?).getD 0
      (b - dotQ piv.tail.dropLast xs) / piv.headD 1 :: xs

/-- The feature vector of line 50: `sleep_hours`, `study_hours`,
`water_intake` with NaN filled by 0; a leading `1` carries the intercept. -/
def featRow (r : Rec) : List ℚ := [1, r.sleep_hours, r.study_hours, r.water_intake.getD 0]

/-- The normal equations `(XᵀX) β = Xᵀ y` of an OLS fit, as an augmented
system over the 4 unknowns (intercept + 3 features). -/
def normalSystem (rows : List (List ℚ)) (ys : List ℚ) : List (List ℚ) :=
  (List.range 4).map fun i =>
    ((List.range 4).map fun j =>
      ((rows.zip ys).map fun ry => ry.1.getD i 0 * ry.1.getD j 0).sum)
    ++ [((rows.zip ys).map fun ry => ry.1.getD i 0 * ry.2).sum]

/-- An OLS fit for one target: the fitted coefficient list
(intercept first). -/
def fitOLS (rows : List (List ℚ)) (ys : List ℚ) : List ℚ :=
  gaussSolve 4 (normalSystem rows ys)

/-- The `models_dict` of `train_regression`: one linear model predicting
`study_hours`, one predicting `productivity_score`. -/
structure Models where
  study_model : List ℚ
  score_model : List ℚ
deriving DecidableEq

/-- `ml_utils.train_regression` (lines 39-62): the `(models_dict,
error_message)` pair; fewer than 2 records short-circuits to the
insufficient-data message (lines 47-48) before any fitting. -/
def train_regression (df : List Rec) : Option Models × Option String :=
  if df.length < 2 then
    (none, some "Not enough data for regression (need at least 2 logs).")
  else
    let rows := df.map featRow
    (some ⟨fitOLS rows (df.map (·.study_hours)),
           fitOLS rows (df.map (·.productivity_score))⟩, none)

/-- `ml_utils.predict_next` (lines 64-76): `models is None` yields
`(None, None)` (lines 69-70); otherwise both predictions are produced, each
rounded to 2 decimals (line 74). `water_intake=None` is substituted by `0`
at the point of use (line 71). -/
def predict_next (models : Option Models) (sleep_hours : ℚ)
    (study_hours : ℚ := 0) (water_intake : Option ℚ := none) : Option ℚ × Option ℚ :=
  match models with
  | none => (none, none)
  | some m =>
    let feat := [1, sleep_hours, study_hours, water_intake.getD 0]
    (some (round2 (dotQ m.study_model feat)), some (round2 (dotQ m.score_model feat)))

/-! ## Helper lemmas -/

/-- The mood bonus condition simplifies to bare case-insensitive membership:
the Python truthiness test `mood and ...` is redundant because the empty
string is not one of the bonus moods. -/
lemma moodBonus_eq (mood : List Char) :
    moodBonus mood =
      if mood.map Char.toLower ∈ bonusMoods then 1.0 else 0.0 := by
  unfold moodBonus
  rcases eq_or_ne mood [] with h | h
  · subst h
    simp +decide
  · simp [h]

/-! ## Claims -/

/-- C1: for every input record, the productivity score equals
`round(0.6 * (min(study_hours, 12) / 12 * 10)
  + 0.35 * max(0, 10 - |7.5 - sleep_hours| * 1.5)
  + 2.0 * (1.0 if the mood, case-insensitively, is one of
  {good, great, happy, energized} else 0.0), 2)`,
with the constants 0.6, 0.35, 2.0, 7.5, 1.5, the 12-hour cap and the
2-decimal rounding exactly as stated. -/
theorem C1_score_formula (sleep_hours study_hours : ℚ) (mood : List Char) :
    compute_productivity_score sleep_hours study_hours mood =
      scoreClaimFormula sleep_hours study_hours mood := by
  unfold compute_productivity_score scoreClaimFormula studyComponent sleepComponent
  rw [moodBonus_eq]

/-- C4: with fewer than 3 records the Clusterer, and with fewer than 2 records
the Forecaster's trainer, return the explicit insufficient-data value (no
computed partition or models, a descriptive message) — and, being total
functions, they cannot crash. -/
theorem C4_insufficient_data (df : List Rec) :
    (df.length < 3 →
      get_clusters df =
        (none, none, some "Not enough data to form clusters (need at least 3 logs).")) ∧
    (df.length < 2 →
      train_regression df =
        (none, some "Not enough data for regression (need at least 2 logs).")) := by
  constructor
  · intro h
    unfold get_clusters
    rw [if_pos h]
  · intro h
    unfold train_regression
    rw [if_pos h]

/-- Witness for C4 at the empty dataset. -/
theorem C4_insufficient_data_witness :
    get_clusters [] =
      (none, none, some "Not enough data to form clusters (need at least 3 logs).") ∧
    train_regression [] =
      (none, some "Not enough data for regression (need at least 2 logs).") :=
  ⟨(C4_insufficient_data []).1 (by decide), (C4_insufficient_data []).2 (by decide)⟩

/-- C6: the Normalizer backfills `productivity_score` with the Scorer applied
to the already-defaulted `sleep_hours`, `study_hours` and the `mood`, exactly
for records whose score is absent; a record that carries a score keeps it
unchanged. (That no record leaves the Normalizer with the score absent is
carried by the output type: `Rec.productivity_score : ℚ`, not `Option ℚ`.) -/
theorem C6_normalizer_backfill (r : RawRecord) :
    (r.productivity_score = none →
      (normalizeRecord r).productivity_score =
        compute_productivity_score (r.sleep_hours.getD 0) (r.study_hours.getD 0) r.mood) ∧
    (∀ s : ℚ, r.productivity_score = some s →
      (normalizeRecord r).productivity_score = s) := by
  constructor
  · intro h
    simp [normalizeRecord, h]
  · intro s h
    simp [normalizeRecord, h]

/-- Witness for C6: one record without a score (backfilled from the defaulted
fields) and one with a score (kept verbatim). -/
theorem C6_normalizer_backfill_witness :
    (normalizeRecord ⟨0, none, some 12, [], "good".data, none, none⟩).productivity_score =
      compute_productivity_score 0 12 "good".data ∧
    (normalizeRecord ⟨0, some 8, some 2, [], [], none, some 9.25⟩).productivity_score = 9.25 := by
  constructor
  · exact (C6_normalizer_backfill ⟨0, none, some 12, [], "good".data, none, none⟩).1 rfl
  · exact (C6_normalizer_backfill ⟨0, some 8, some 2, [], [], none, some 9.25⟩).2 9.25 rfl

/-- C7: the Forecaster's prediction step returns both outputs (study hours
and productivity score, each rounded to 2 decimals) or reports both
unavailable together; it never returns exactly one prediction. -/
theorem C7_predictions_paired (models : Option Models) (sleep_hours study_hours : ℚ)
    (water_intake : Option ℚ) :
    predict_next models sleep_hours study_hours water_intake = (none, none) ∨
    ∃ a b : ℚ, predict_next models sleep_hours study_hours water_intake = (some a, some b) := by
  cases models with
  | none => exact Or.inl rfl
  | some m =>
    exact Or.inr ⟨_, _, rfl⟩

/-- C10: the Clusterer is a deterministic function of the input dataset — in
the source the only nondeterminism of `KMeans` is pinned by
`random_state=42`, and the embedding is accordingly a pure function — so two
runs on identical data give identical label sequences. -/
theorem C10_cluster_deterministic (df1 df2 : List Rec) (h : df1 = df2) :
    get_clusters df1 = get_clusters df2 :=
  congrArg get_clusters h

/-- Witness for C10 at a concrete 3-record dataset. -/
theorem C10_cluster_deterministic_witness :
    get_clusters [⟨0, 7, 2, [], [], none, 5⟩, ⟨1, 8, 3, [], [], none, 6⟩,
        ⟨2, 6, 1, [], [], none, 4⟩] =
      get_clusters [⟨0, 7, 2, [], [], none, 5⟩, ⟨1, 8, 3, [], [], none, 6⟩,
        ⟨2, 6, 1, [], [], none, 4⟩] :=
  C10_cluster_deterministic _ _ rfl

/-- Monotonicity of 2-decimal rounding. -/
lemma round2_mono {a b : ℚ} (h : a ≤ b) : round2 a ≤ round2 b := by
  unfold round2
  have hr : round (a * 100) ≤ round (b * 100) := by
    rw [round_eq, round_eq]
    exact Int.floor_mono (by linarith)
  have hc : ((round (a * 100) : ℤ) : ℚ) ≤ ((round (b * 100) : ℤ) : ℚ) := by
    exact_mod_cast hr
  linarith

/-- C8, counterexample: `sleep_hours = 15` and `sleep_hours = 16` are both
valid (0-24); 16 is farther from 7.5 than 15, yet the sleep component does
not strictly decrease between them — both sit on the 0 floor. -/
theorem C8_counterexample :
    (0 : ℚ) ≤ 15 ∧ (15 : ℚ) ≤ 24 ∧ (0 : ℚ) ≤ 16 ∧ (16 : ℚ) ≤ 24 ∧
    |7.5 - (15 : ℚ)| < |7.5 - (16 : ℚ)| ∧
    sleepComponent 15 = 0 ∧ sleepComponent 16 = 0 ∧
    ¬ sleepComponent 16 < sleepComponent 15 := by
  have h15 : |7.5 - (15 : ℚ)| = 7.5 := by
    rw [abs_of_nonpos (by norm_num)]
    norm_num
  have h16 : |7.5 - (16 : ℚ)| = 8.5 := by
    rw [abs_of_nonpos (by norm_num)]
    norm_num
  refine ⟨by norm_num, by norm_num, by norm_num, by norm_num, ?_, ?_, ?_, ?_⟩
  · rw [h15, h16]; norm_num
  · unfold sleepComponent; rw [h15]; norm_num
  · unfold sleepComponent; rw [h16]; norm_num
  · unfold sleepComponent; rw [h15, h16]; norm_num

/-- C8, amended: the sleep component is uniquely maximized at
`sleep_hours = 7.5`, and it strictly decreases with the distance from 7.5 as
long as it has not yet reached the 0 floor (once the floor is reached —
beyond 20/3 hours of deviation — it stays constant at 0). -/
theorem C8_sleep_component_peak :
    (∀ s : ℚ, s ≠ 7.5 → sleepComponent s < sleepComponent 7.5) ∧
    (∀ s1 s2 : ℚ, |7.5 - s1| < |7.5 - s2| → 0 < sleepComponent s2 →
      sleepComponent s2 < sleepComponent s1) := by
  have hpeak : sleepComponent 7.5 = 10 := by
    unfold sleepComponent
    norm_num
  constructor
  · intro s hs
    rw [hpeak]
    have hd : 0 < |7.5 - s| := by
      rw [abs_pos, sub_ne_zero]
      exact fun h => hs h.symm
    unfold sleepComponent
    apply max_lt (by norm_num)
    nlinarith
  · intro s1 s2 hlt hpos
    have h2 : (0 : ℚ) < 10 - |7.5 - s2| * 1.5 := by
      by_contra h
      push_neg at h
      have : sleepComponent s2 = 0 := by
        unfold sleepComponent
        exact max_eq_left h
      rw [this] at hpos
      exact lt_irrefl 0 hpos
    have hs2 : sleepComponent s2 = 10 - |7.5 - s2| * 1.5 := by
      unfold sleepComponent
      exact max_eq_right (le_of_lt h2)
    have hs1 : 10 - |7.5 - s1| * 1.5 ≤ sleepComponent s1 := le_max_right _ _
    rw [hs2]
    nlinarith

/-- Witness for C8's amended statement: 8 scores strictly below the peak at
7.5, and 9 (farther out, still above the floor) strictly below 8. -/
theorem C8_sleep_component_peak_witness :
    sleepComponent 8 < sleepComponent 7.5 ∧ sleepComponent 9 < sleepComponent 8 := by
  have h8 : |7.5 - (8 : ℚ)| = 0.5 := by
    rw [abs_of_nonpos (by norm_num)]
    norm_num
  have h9 : |7.5 - (9 : ℚ)| = 1.5 := by
    rw [abs_of_nonpos (by norm_num)]
    norm_num
  constructor
  · exact C8_sleep_component_peak.1 8 (by norm_num)
  · exact C8_sleep_component_peak.2 8 9 (by rw [h8, h9]; norm_num)
      (by unfold sleepComponent; rw [h9]; norm_num)

/-- C9, counterexample: at `sleep_hours = 7.5`, `study_hours = 12`,
`mood = "good"` the score is 11.5, outside the claimed range
"approximately [0, 10.7]". -/
theorem C9_counterexample :
    compute_productivity_score 7.5 12 "good".data = 11.5 ∧
    ¬ compute_productivity_score 7.5 12 "good".data ≤ 10.7 := by
  have hm : moodBonus "good".data = 1.0 := by simp +decide [moodBonus]
  have hv : compute_productivity_score 7.5 12 "good".data = 11.5 := by
    norm_num [compute_productivity_score, studyComponent, sleepComponent, hm,
      round2, round_eq]
  exact ⟨hv, by rw [hv]; norm_num⟩

/-- C9, amended: for every nonnegative `study_hours` (all valid records) the
score lies in `[0, 11.5]` — the attainable maximum is 11.5
(= 0.6·10 + 0.35·10 + 2.0), not 10.7; determinism and purity are carried by
the embedding of the scorer as a function. -/
theorem C9_score_range (sleep_hours study_hours : ℚ) (mood : List Char)
    (hst : 0 ≤ study_hours) :
    0 ≤ compute_productivity_score sleep_hours study_hours mood ∧
    compute_productivity_score sleep_hours study_hours mood ≤ 11.5 := by
  have hstudy : 0 ≤ studyComponent study_hours ∧ studyComponent study_hours ≤ 10 := by
    unfold studyComponent
    have h1 : 0 ≤ min study_hours 12 := le_min hst (by norm_num)
    have h2 : min study_hours 12 ≤ 12 := min_le_right _ _
    constructor
    · positivity
    · nlinarith
  have hsleep : 0 ≤ sleepComponent sleep_hours ∧ sleepComponent sleep_hours ≤ 10 := by
    unfold sleepComponent
    refine ⟨le_max_left _ _, max_le (by norm_num) ?_⟩
    have := abs_nonneg (7.5 - sleep_hours)
    nlinarith
  have hmood : 0 ≤ moodBonus mood ∧ moodBonus mood ≤ 1 := by
    unfold moodBonus
    split <;> norm_num
  have hlo : round2 0 ≤ compute_productivity_score sleep_hours study_hours mood := by
    unfold compute_productivity_score
    apply round2_mono
    nlinarith [hstudy.1, hsleep.1, hmood.1]
  have hhi : compute_productivity_score sleep_hours study_hours mood ≤ round2 11.5 := by
    unfold compute_productivity_score
    apply round2_mono
    nlinarith [hstudy.2, hsleep.2, hmood.2]
  have h0 : round2 0 = 0 := by norm_num [round2, round_eq]
  have h115 : round2 11.5 = 11.5 := by norm_num [round2, round_eq]
  rw [h0] at hlo
  rw [h115] at hhi
  exact ⟨hlo, hhi⟩

/-- Witness for C9's amended statement at (7.5, 12, "good"). -/
theorem C9_score_range_witness :
    0 ≤ compute_productivity_score 7.5 12 "good".data ∧
    compute_productivity_score 7.5 12 "good".data ≤ 11.5 :=
  C9_score_range 7.5 12 "good".data (by norm_num)

/-- Replacing `;` by `,` and then splitting on `,` is the same as splitting
on `,` and `;` directly. -/
lemma splitCommaAux_map_replSemi (s : List Char) :
    ∀ acc, splitCommaAux (s.map replSemi) acc = splitSepsAux s acc := by
  induction s with
  | nil => intro acc; rfl
  | cons c cs ih =>
    intro acc
    by_cases h1 : c = ','
    · subst h1
      simp [splitCommaAux, splitSepsAux, replSemi, ih]
    · by_cases h2 : c = ';'
      · subst h2
        simp [splitCommaAux, splitSepsAux, replSemi, ih]
      · have hr : replSemi c = c := by simp [replSemi, h2]
        simp [splitCommaAux, splitSepsAux, hr, h1, h2, ih]

/-- The code's tokenizer agrees with the spec's split-on-both-separators
description. -/
lemma tokens_eq_tokensSpec (s : List Char) : tokens s = tokensSpec s := by
  unfold tokens tokensSpec splitComma splitSeps
  rw [splitCommaAux_map_replSemi]

/-- The `(weekday, activity)` pair list built by the code is the one the spec
describes. -/
lemma heatPairs_eq_spec (df : List Rec) : heatPairs df = heatPairsSpec df := by
  induction df with
  | nil => rfl
  | cons r rs ih =>
    simp [heatPairs, heatPairsSpec, tokens_eq_tokensSpec, ih]

/-- C5: the activity/weekday table is built from tokens obtained by splitting
each record's `activities` on `,` and `;`, trimming and lowercasing, and
discarding empties (conjunct 1: the code's replace-then-split tokenizer
equals that description); every emitted row key is a lowercased token and
case variants tokenize identically (conjuncts 2-3); an empty `activities`
yields no tokens and contributes nothing (conjuncts 4-5); a dataset with no
activity tokens yields the explicitly empty table (conjunct 6); otherwise the
columns are exactly the weekdays present ordered Monday→Sunday and each cell
counts the matching (weekday, token) pairs, absent combinations counting 0
(conjunct 7). -/
theorem C5_activity_table (df : List Rec) (s : List Char) :
    heatPairs df = heatPairsSpec df ∧
    (∀ a ∈ tokens s, ∃ t : List Char, a = t.map Char.toLower) ∧
    tokens "Reading".data = tokens "reading".data ∧
    tokens [] = [] ∧
    (∀ r : Rec, r.activities = [] → heatPairs (r :: df) = heatPairs df) ∧
    (heatPairsSpec df = [] → activity_heatmap_data df = ⟨[], []⟩) ∧
    (heatPairsSpec df ≠ [] →
      activity_heatmap_data df =
        ⟨pivotCols (heatPairsSpec df),
         (pivotActs (heatPairsSpec df)).map fun a =>
           (a, (pivotCols (heatPairsSpec df)).map fun w =>
             pivotCell (heatPairsSpec df) w a)⟩) := by
  refine ⟨heatPairs_eq_spec df, ?_, by decide, by decide, ?_, ?_, ?_⟩
  · intro a ha
    unfold tokens at ha
    have hm : a ∈ (splitComma (s.map replSemi)).map cleanToken :=
      List.mem_of_mem_filter ha
    rcases List.mem_map.1 hm with ⟨pre, _, hc⟩
    exact ⟨pyStrip pre, hc ▸ rfl⟩
  · intro r hr
    simp [heatPairs, hr]
    decide
  · intro h
    have hp : heatPairs df = [] := (heatPairs_eq_spec df).trans h
    cases df with
    | nil => rfl
    | cons r rs =>
      unfold activity_heatmap_data
      rw [hp]
  · intro h
    cases df with
    | nil => exact absurd rfl h
    | cons r rs =>
      have hps := heatPairs_eq_spec (r :: rs)
      cases hq : heatPairsSpec (r :: rs) with
      | nil => exact absurd hq h
      | cons p ps2 =>
        unfold activity_heatmap_data
        rw [hps, hq]

/-- Witness for C5: a one-record dataset whose `activities` is
`"Gym; gym, "` produces the pivot table (both case variants merge into one
`gym` row, counted on Thursday), and a record with only separators and
whitespace produces the explicitly empty table. -/
theorem C5_activity_table_witness :
    activity_heatmap_data [⟨0, 0, 0, "Gym; gym, ".data, [], none, 0⟩] =
      ⟨pivotCols (heatPairsSpec [⟨0, 0, 0, "Gym; gym, ".data, [], none, 0⟩]),
       (pivotActs (heatPairsSpec [⟨0, 0, 0, "Gym; gym, ".data, [], none, 0⟩])).map fun a =>
         (a, (pivotCols (heatPairsSpec [⟨0, 0, 0, "Gym; gym, ".data, [], none, 0⟩])).map fun w =>
           pivotCell (heatPairsSpec [⟨0, 0, 0, "Gym; gym, ".data, [], none, 0⟩]) w a)⟩ ∧
    activity_heatmap_data [⟨0, 0, 0, " ; ".data, [], none, 0⟩] = ⟨[], []⟩ :=
  ⟨(C5_activity_table [⟨0, 0, 0, "Gym; gym, ".data, [], none, 0⟩] []).2.2.2.2.2.2
      (by decide),
   (C5_activity_table [⟨0, 0, 0, " ; ".data, [], none, 0⟩] []).2.2.2.2.2.1 (by decide)⟩

/-! ## Lemmas about the resample grid and bucket sums -/

lemma foldl_min_le_init (xs : List ℤ) : ∀ a : ℤ, xs.foldl min a ≤ a := by
  induction xs with
  | nil => intro a; exact le_refl a
  | cons y ys ih =>
    intro a
    exact le_trans (ih (min a y)) (min_le_left a y)

lemma foldl_min_le_mem (xs : List ℤ) : ∀ a x, x ∈ xs → xs.foldl min a ≤ x := by
  induction xs with
  | nil => intro a x hx; cases hx
  | cons y ys ih =>
    intro a x hx
    rcases List.mem_cons.1 hx with h | h
    · subst h
      exact le_trans (foldl_min_le_init ys (min a x)) (min_le_right a x)
    · exact ih (min a y) x h

lemma le_foldl_max_init (xs : List ℤ) : ∀ a : ℤ, a ≤ xs.foldl max a := by
  induction xs with
  | nil => intro a; exact le_refl a
  | cons y ys ih =>
    intro a
    exact le_trans (le_max_left a y) (ih (max a y))

lemma le_foldl_max_mem (xs : List ℤ) : ∀ a x, x ∈ xs → x ≤ xs.foldl max a := by
  induction xs with
  | nil => intro a x hx; cases hx
  | cons y ys ih =>
    intro a x hx
    rcases List.mem_cons.1 hx with h | h
    · subst h
      exact le_trans (le_max_right a x) (le_foldl_max_init ys (max a x))
    · exact ih (max a y) x h

lemma listMin_le {xs : List ℤ} {x : ℤ} (h : x ∈ xs) : listMin xs ≤ x := by
  cases xs with
  | nil => cases h
  | cons y ys =>
    rcases List.mem_cons.1 h with h' | h'
    · subst h'
      exact foldl_min_le_init ys x
    · exact foldl_min_le_mem ys y x h'

lemma le_listMax {xs : List ℤ} {x : ℤ} (h : x ∈ xs) : x ≤ listMax xs := by
  cases xs with
  | nil => cases h
  | cons y ys =>
    rcases List.mem_cons.1 h with h' | h'
    · subst h'
      exact le_foldl_max_init ys x
    · exact le_foldl_max_mem ys y x h'

lemma foldl_min_mem (xs : List ℤ) : ∀ a, xs.foldl min a = a ∨ xs.foldl min a ∈ xs := by
  induction xs with
  | nil => intro a; exact Or.inl rfl
  | cons y ys ih =>
    intro a
    rcases ih (min a y) with h | h
    · rcases min_choice a y with hm | hm
      · exact Or.inl (h.trans hm)
      · exact Or.inr (List.mem_cons.2 (Or.inl (h.trans hm)))
    · exact Or.inr (List.mem_cons.2 (Or.inr h))

lemma foldl_max_mem (xs : List ℤ) : ∀ a, xs.foldl max a = a ∨ xs.foldl max a ∈ xs := by
  induction xs with
  | nil => intro a; exact Or.inl rfl
  | cons y ys ih =>
    intro a
    rcases ih (max a y) with h | h
    · rcases max_choice a y with hm | hm
      · exact Or.inl (h.trans hm)
      · exact Or.inr (List.mem_cons.2 (Or.inl (h.trans hm)))
    · exact Or.inr (List.mem_cons.2 (Or.inr h))

lemma listMin_mem {xs : List ℤ} (h : xs ≠ []) : listMin xs ∈ xs := by
  cases xs with
  | nil => exact absurd rfl h
  | cons y ys =>
    rcases foldl_min_mem ys y with h' | h'
    · rw [listMin, h']
      exact List.mem_cons_self y ys
    · exact List.mem_cons.2 (Or.inr h')

lemma listMax_mem {xs : List ℤ} (h : xs ≠ []) : listMax xs ∈ xs := by
  cases xs with
  | nil => exact absurd rfl h
  | cons y ys =>
    rcases foldl_max_mem ys y with h' | h'
    · rw [listMax, h']
      exact List.mem_cons_self y ys
    · exact List.mem_cons.2 (Or.inr h')

lemma mem_bucketGrid_iff (step : ℕ) (lo hi x : ℤ) :
    x ∈ bucketGrid step lo hi ↔
      ∃ i : ℕ, i < (hi - lo).toNat / step + 1 ∧ lo + (step : ℤ) * i = x := by
  unfold bucketGrid
  constructor
  · intro hx
    rcases List.mem_map.1 hx with ⟨i, hi_mem, hi_eq⟩
    exact ⟨i, List.mem_range.1 hi_mem, hi_eq⟩
  · intro hx
    rcases hx with ⟨i, hi_lt, hi_eq⟩
    exact List.mem_map.2 ⟨i, List.mem_range.2 hi_lt, hi_eq⟩

lemma mem_bucketGrid {step : ℕ} (hstep : 0 < step) {lo hi x : ℤ}
    (h1 : lo ≤ x) (h2 : x ≤ hi) (hd : (step : ℤ) ∣ x - lo) :
    x ∈ bucketGrid step lo hi := by
  rcases hd with ⟨j, hj⟩
  have hs : (0 : ℤ) < step := by exact_mod_cast hstep
  have hj0 : 0 ≤ j := by nlinarith
  refine (mem_bucketGrid_iff step lo hi x).2 ⟨j.toNat, ?_, ?_⟩
  · have hc : ((j.toNat * step : ℕ) : ℤ) ≤ hi - lo := by
      push_cast
      rw [Int.toNat_of_nonneg hj0]
      linarith
    have hnat : j.toNat * step ≤ (hi - lo).toNat := by
      have := Int.toNat_le_toNat hc
      rwa [Int.toNat_natCast] at this
    have hdiv : j.toNat ≤ (hi - lo).toNat / step :=
      (Nat.le_div_iff_mul_le hstep).2 hnat
    exact Nat.lt_succ_of_le hdiv
  · rw [Int.toNat_of_nonneg hj0]
    linarith

lemma of_mem_bucketGrid {step : ℕ} (hstep : 0 < step) {lo hi x : ℤ} (hle : lo ≤ hi)
    (hx : x ∈ bucketGrid step lo hi) :
    lo ≤ x ∧ x ≤ hi ∧ (step : ℤ) ∣ x - lo := by
  rcases (mem_bucketGrid_iff step lo hi x).1 hx with ⟨i, hi_lt, hi_eq⟩
  have hile : i ≤ (hi - lo).toNat / step := Nat.lt_succ_iff.1 hi_lt
  have hmulnat : step * i ≤ (hi - lo).toNat := by
    calc step * i ≤ step * ((hi - lo).toNat / step) := Nat.mul_le_mul_left step hile
    _ ≤ (hi - lo).toNat := Nat.mul_div_le _ step
  have hmul : (step : ℤ) * i ≤ hi - lo := by
    have hc : ((step * i : ℕ) : ℤ) ≤ ((hi - lo).toNat : ℤ) := by exact_mod_cast hmulnat
    rwa [Int.toNat_of_nonneg (by linarith), Nat.cast_mul] at hc
  have hnn : (0 : ℤ) ≤ (step : ℤ) * i := by positivity
  exact ⟨by linarith, by linarith, ⟨i, by linarith⟩⟩

lemma bucketGrid_nodup (step : ℕ) (hstep : 0 < step) (lo hi : ℤ) :
    (bucketGrid step lo hi).Nodup := by
  unfold bucketGrid
  refine List.Nodup.map ?_ (List.nodup_range _)
  intro i j h
  have hs : (step : ℤ) ≠ 0 := by exact_mod_cast hstep.ne'
  have hm : (step : ℤ) * i = step * j := by
    simp only [add_right_inj] at h
    exact h
  exact_mod_cast mul_left_cancel₀ hs hm

lemma weekLabel_eq_div (d : ℤ) : weekLabel d = 7 * ((d + 3) / 7) + 3 := by
  unfold weekLabel
  omega

lemma weekLabel_sub_dvd (d e : ℤ) : (7 : ℤ) ∣ weekLabel d - weekLabel e := by
  rw [weekLabel_eq_div, weekLabel_eq_div]
  exact ⟨(d + 3) / 7 - (e + 3) / 7, by ring⟩

lemma sum_map_ite_zero_of_not_mem (c : ℤ) (v : ℚ) :
    ∀ grid : List ℤ, c ∉ grid → (grid.map fun w => if c = w then v else 0).sum = 0 := by
  intro grid
  induction grid with
  | nil => intro _; rfl
  | cons w ws ih =>
    intro h
    have hcw : c ≠ w := fun he => h (List.mem_cons.2 (Or.inl he))
    have hws : c ∉ ws := fun he => h (List.mem_cons.2 (Or.inr he))
    simp [hcw, ih hws]

lemma sum_map_ite_zero (c : ℤ) (v : ℚ) :
    ∀ grid : List ℤ, grid.Nodup → c ∈ grid →
      (grid.map fun w => if c = w then v else 0).sum = v := by
  intro grid
  induction grid with
  | nil => intro _ h; cases h
  | cons w ws ih =>
    intro hnd hmem
    have hw_nin : w ∉ ws := (List.nodup_cons.1 hnd).1
    have hnd' : ws.Nodup := (List.nodup_cons.1 hnd).2
    rcases List.mem_cons.1 hmem with h | h
    · subst h
      simp [sum_map_ite_zero_of_not_mem c v ws hw_nin]
    · have hcw : c ≠ w := fun he => hw_nin (he ▸ h)
      simp [hcw, ih hnd' h]

lemma sum_map_add_split (f g : ℤ → ℚ) :
    ∀ grid : List ℤ,
      (grid.map fun w => f w + g w).sum = (grid.map f).sum + (grid.map g).sum := by
  intro grid
  induction grid with
  | nil => simp
  | cons w ws ih =>
    simp [ih]
    ring

/-- Each record lands in exactly one grid bucket, so summing any per-record
quantity bucket by bucket over a covering duplicate-free grid recovers the
total. -/
lemma partition_sum (key : Rec → ℤ) (f : Rec → ℚ) (grid : List ℤ) (hnd : grid.Nodup) :
    ∀ df : List Rec, (∀ r ∈ df, key r ∈ grid) →
      (grid.map fun w => ((df.filter fun r => key r = w).map f).sum).sum
        = (df.map f).sum := by
  intro df
  induction df with
  | nil => simp
  | cons r rest ih =>
    intro hcov
    have hr : key r ∈ grid := hcov r (List.mem_cons_self r rest)
    have hrest : ∀ x ∈ rest, key x ∈ grid := fun x hx => hcov x (List.mem_cons.2 (Or.inr hx))
    have hstep : ∀ w : ℤ, (((r :: rest).filter fun x => key x = w).map f).sum
        = (if key r = w then f r else 0)
          + ((rest.filter fun x => key x = w).map f).sum := by
      intro w
      by_cases h : key r = w
      · simp [List.filter_cons, h]
      · simp [List.filter_cons, h]
    calc (grid.map fun w => (((r :: rest).filter fun x => key x = w).map f).sum).sum
        = (grid.map fun w => (if key r = w then f r else 0)
            + ((rest.filter fun x => key x = w).map f).sum).sum := by
          rw [List.map_congr_left fun w _ => hstep w]
      _ = (grid.map fun w => if key r = w then f r else 0).sum
            + (grid.map fun w => ((rest.filter fun x => key x = w).map f).sum).sum :=
          sum_map_add_split _ _ grid
      _ = f r + (rest.map f).sum := by
          rw [sum_map_ite_zero (key r) (f r) grid hnd hr, ih hrest]
      _ = ((r :: rest).map f).sum := by simp

/-- Rounding to 2 decimals is the identity on exact hundredths. -/
lemma round2_hundredth (k : ℤ) : round2 ((k : ℚ) / 100) = (k : ℚ) / 100 := by
  unfold round2
  rw [div_mul_cancel₀ _ (by norm_num : (100 : ℚ) ≠ 0), round_intCast]

lemma sum_hundredths {l : List ℚ} (h : ∀ x ∈ l, ∃ k : ℤ, x = (k : ℚ) / 100) :
    ∃ k : ℤ, l.sum = (k : ℚ) / 100 := by
  induction l with
  | nil => exact ⟨0, by norm_num⟩
  | cons x xs ih =>
    rcases h x (List.mem_cons_self x xs) with ⟨k1, hk1⟩
    rcases ih (fun y hy => h y (List.mem_cons.2 (Or.inr hy))) with ⟨k2, hk2⟩
    refine ⟨k1 + k2, ?_⟩
    rw [List.sum_cons, hk1, hk2]
    push_cast
    ring

/-- The generic lossless-sum statement for `resampleBy`: when every record's
`study_hours` is an exact hundredth (so the per-bucket `.round(2)` changes
nothing) and the bucket key sends every record into the grid, the rollup's
study-hours column sums to the dataset total. -/
lemma resampleBy_studySum (key : Rec → ℤ) (step : ℕ) (hstep : 0 < step)
    (df : List Rec)
    (hq : ∀ r ∈ df, ∃ k : ℤ, r.study_hours = (k : ℚ) / 100)
    (hdvd : ∀ r s : Rec, (step : ℤ) ∣ key r - key s) :
    ((resampleBy key step df).map (·.studySum)).sum = (df.map (·.study_hours)).sum := by
  cases df with
  | nil => rfl
  | cons r0 rest =>
    set df := r0 :: rest with hdf
    set lo := listMin (df.map key) with hlo
    set hi := listMax (df.map key) with hhi
    have hcov : ∀ r ∈ df, key r ∈ bucketGrid step lo hi := by
      intro r hr
      have hmem : key r ∈ df.map key := List.mem_map_of_mem key hr
      have h1 : lo ≤ key r := listMin_le hmem
      have h2 : key r ≤ hi := le_listMax hmem
      have hlomem : lo ∈ df.map key := listMin_mem (by simp [hdf])
      rcases List.mem_map.1 hlomem with ⟨s, _, hs⟩
      exact mem_bucketGrid hstep h1 h2 (hs ▸ hdvd r s)
    have hnd := bucketGrid_nodup step hstep lo hi
    have hrs : resampleBy key step df = (bucketGrid step lo hi).map (bucketRow key df) := rfl
    rw [hrs, List.map_map]
    have hcell : ∀ w ∈ bucketGrid step lo hi,
        ((·.studySum) ∘ bucketRow key df) w
          = ((df.filter fun r => key r = w).map (·.study_hours)).sum := by
      intro w _
      have hsub : ∀ x ∈ (df.filter fun r => key r = w).map (·.study_hours),
          ∃ k : ℤ, x = (k : ℚ) / 100 := by
        intro x hx
        rcases List.mem_map.1 hx with ⟨r, hr, hxr⟩
        rcases hq r (List.mem_of_mem_filter hr) with ⟨k, hk⟩
        exact ⟨k, by rw [← hxr, hk]⟩
      rcases sum_hundredths hsub with ⟨k, hk⟩
      show round2 ((df.filter fun r => key r = w).map (·.study_hours)).sum = _
      rw [hk, round2_hundredth]
    rw [List.map_congr_left hcell]
    exact partition_sum key (·.study_hours) _ hnd df hcov

/-- The bucket column of a nonempty rollup is exactly the regular grid. -/
lemma resampleBy_map_bucket (key : Rec → ℤ) (step : ℕ) (df : List Rec) (hne : df ≠ []) :
    (resampleBy key step df).map (·.bucket)
      = bucketGrid step (listMin (df.map key)) (listMax (df.map key)) := by
  cases df with
  | nil => exact absurd rfl hne
  | cons r rs =>
    show ((bucketGrid step (listMin ((r :: rs).map key)) (listMax ((r :: rs).map key))).map
        (bucketRow key (r :: rs))).map (·.bucket) = _
    rw [List.map_map]
    have h : ∀ w ∈ bucketGrid step (listMin ((r :: rs).map key)) (listMax ((r :: rs).map key)),
        ((·.bucket) ∘ bucketRow key (r :: rs)) w = w := fun w _ => rfl
    rw [List.map_congr_left h, List.map_id']

/-- A rollup row whose bucket contains no record carries `0` as its
study-hours sum and absent (NaN) means. -/
lemma resampleBy_empty_bucket (key : Rec → ℤ) (step : ℕ) (df : List Rec)
    (row : SummaryRow) (hrow : row ∈ resampleBy key step df)
    (hempty : (df.filter fun r => key r = row.bucket) = []) :
    row.studySum = 0 ∧ row.sleepMean = none ∧ row.scoreMean = none := by
  cases df with
  | nil => cases hrow
  | cons r rs =>
    have hrow' : row ∈ (bucketGrid step (listMin ((r :: rs).map key))
        (listMax ((r :: rs).map key))).map (bucketRow key (r :: rs)) := hrow
    rcases List.mem_map.1 hrow' with ⟨w, _, hweq⟩
    subst hweq
    have hb : (bucketRow key (r :: rs) w).bucket = w := rfl
    rw [hb] at hempty
    refine ⟨?_, ?_, ?_⟩
    · show round2 (((r :: rs).filter fun x => key x = w).map (·.study_hours)).sum = 0
      rw [hempty]
      norm_num [round2, round_eq]
    · show meanOpt (((r :: rs).filter fun x => key x = w).map (·.sleep_hours)) = none
      rw [hempty]
      rfl
    · show meanOpt (((r :: rs).filter fun x => key x = w).map (·.productivity_score)) = none
      rw [hempty]
      rfl

/-- C2, counterexample: for two records 21 days apart (days 0 and 21, weekly
buckets 3 and 24), the weekly rollup emits bucket 10 although no record falls
in it — zero-record buckets inside the span are emitted, not omitted. -/
theorem C2_counterexample :
    (10 : ℤ) ∈ (weekly_summary [⟨0, 0, 0, [], [], none, 0⟩,
        ⟨21, 0, 0, [], [], none, 0⟩]).map (·.bucket) ∧
    (([⟨0, 0, 0, [], [], none, 0⟩, ⟨21, 0, 0, [], [], none, 0⟩] : List Rec).filter
      fun r => weekLabel r.day = 10) = [] := by
  constructor
  · norm_num [weekly_summary, resampleBy, bucketGrid, listMin, listMax, weekLabel,
      bucketRow, List.range_succ]
    exact ⟨1, by decide, by norm_num⟩
  · decide

/-- C2, amended: in the weekly and monthly rollups the emitted buckets are
exactly the regular calendar grid spanning the first to the last record's
bucket (for weekly: every label within the span congruent to the week
labels mod 7; for monthly: every month index within the span) — so buckets
with zero records inside the span are emitted, not omitted, carrying a `0`
study-hours sum and absent (NaN) means. -/
theorem C2_buckets_span (df : List Rec) (hne : df ≠ []) :
    (∀ b : ℤ, b ∈ (weekly_summary df).map (·.bucket) ↔
      listMin (df.map fun r => weekLabel r.day) ≤ b ∧
      b ≤ listMax (df.map fun r => weekLabel r.day) ∧
      (7 : ℤ) ∣ b - listMin (df.map fun r => weekLabel r.day)) ∧
    (∀ row ∈ weekly_summary df,
      (df.filter fun r => weekLabel r.day = row.bucket) = [] →
        row.studySum = 0 ∧ row.sleepMean = none ∧ row.scoreMean = none) ∧
    (∀ b : ℤ, b ∈ (monthly_summary df).map (·.bucket) ↔
      listMin (df.map fun r => monthIdxOfDay r.day) ≤ b ∧
      b ≤ listMax (df.map fun r => monthIdxOfDay r.day)) ∧
    (∀ row ∈ monthly_summary df,
      (df.filter fun r => monthIdxOfDay r.day = row.bucket) = [] →
        row.studySum = 0 ∧ row.sleepMean = none ∧ row.scoreMean = none) := by
  have hdf : df.map (fun r => weekLabel r.day) ≠ [] := by
    cases df with
    | nil => exact absurd rfl hne
    | cons r rs => simp
  have hdfm : df.map (fun r => monthIdxOfDay r.day) ≠ [] := by
    cases df with
    | nil => exact absurd rfl hne
    | cons r rs => simp
  refine ⟨?_, ?_, ?_, ?_⟩
  · intro b
    rw [show (weekly_summary df).map (·.bucket)
        = bucketGrid 7 (listMin (df.map fun r => weekLabel r.day))
            (listMax (df.map fun r => weekLabel r.day)) from
      resampleBy_map_bucket _ 7 df hne]
    have hle : listMin (df.map fun r => weekLabel r.day)
        ≤ listMax (df.map fun r => weekLabel r.day) :=
      le_trans (listMin_le (listMin_mem hdf)) (le_listMax (listMin_mem hdf))
    constructor
    · intro hb
      exact of_mem_bucketGrid (by norm_num) hle hb
    · intro hb
      exact mem_bucketGrid (by norm_num) hb.1 hb.2.1 hb.2.2
  · intro row hrow hempty
    exact resampleBy_empty_bucket _ 7 df row hrow hempty
  · intro b
    rw [show (monthly_summary df).map (·.bucket)
        = bucketGrid 1 (listMin (df.map fun r => monthIdxOfDay r.day))
            (listMax (df.map fun r => monthIdxOfDay r.day)) from
      resampleBy_map_bucket _ 1 df hne]
    have hle : listMin (df.map fun r => monthIdxOfDay r.day)
        ≤ listMax (df.map fun r => monthIdxOfDay r.day) :=
      le_trans (listMin_le (listMin_mem hdfm)) (le_listMax (listMin_mem hdfm))
    constructor
    · intro hb
      have h := of_mem_bucketGrid (by norm_num) hle hb
      exact ⟨h.1, h.2.1⟩
    · intro hb
      exact mem_bucketGrid (by norm_num) hb.1 hb.2 (one_dvd _)
  · intro row hrow hempty
    exact resampleBy_empty_bucket _ 1 df row hrow hempty

/-- Witness for C2's amended statement: the two-record dataset of the
counterexample, queried at bucket 10. -/
theorem C2_buckets_span_witness :
    (10 : ℤ) ∈ (weekly_summary [⟨0, 0, 0, [], [], none, 0⟩,
        ⟨21, 0, 0, [], [], none, 0⟩]).map (·.bucket) ↔
      listMin (([⟨0, 0, 0, [], [], none, 0⟩, ⟨21, 0, 0, [], [], none, 0⟩] : List Rec).map
        fun r => weekLabel r.day) ≤ 10 ∧
      (10 : ℤ) ≤ listMax (([⟨0, 0, 0, [], [], none, 0⟩,
        ⟨21, 0, 0, [], [], none, 0⟩] : List Rec).map fun r => weekLabel r.day) ∧
      (7 : ℤ) ∣ 10 - listMin (([⟨0, 0, 0, [], [], none, 0⟩,
        ⟨21, 0, 0, [], [], none, 0⟩] : List Rec).map fun r => weekLabel r.day) :=
  (C2_buckets_span [⟨0, 0, 0, [], [], none, 0⟩, ⟨21, 0, 0, [], [], none, 0⟩]
    (by decide)).1 10

/-- C3, counterexample: a single record with `study_hours = 0.004` (day 0).
Its weekly bucket sum is rounded to 2 decimals, giving `0`, while the dataset
total is `0.004` — the rollup sum is not lossless for general inputs. -/
theorem C3_counterexample :
    ((weekly_summary [⟨0, 0, 1/250, [], [], none, 0⟩]).map (·.studySum)).sum ≠
      (([⟨0, 0, 1/250, [], [], none, 0⟩] : List Rec).map (·.study_hours)).sum := by
  norm_num [weekly_summary, resampleBy, bucketGrid, listMin, listMax, weekLabel,
    bucketRow, meanOpt, round2, round_eq, List.range_succ, List.filter_cons]

/-- C3, amended: when every record's `study_hours` is an exact multiple of
0.01 (so the per-bucket 2-decimal rounding is the identity), the sum of
per-bucket study-hours in the weekly and in the monthly rollup equals the sum
of all study-hours in the dataset; an empty dataset yields an empty rollup,
not an error, unconditionally. -/
theorem C3_rollup_lossless (df : List Rec)
    (hq : ∀ r ∈ df, ∃ k : ℤ, r.study_hours = (k : ℚ) / 100) :
    ((weekly_summary df).map (·.studySum)).sum = (df.map (·.study_hours)).sum ∧
    ((monthly_summary df).map (·.studySum)).sum = (df.map (·.study_hours)).sum ∧
    weekly_summary [] = [] ∧ monthly_summary [] = [] := by
  refine ⟨?_, ?_, rfl, rfl⟩
  · exact resampleBy_studySum _ 7 (by norm_num) df hq
      (fun r s => weekLabel_sub_dvd r.day s.day)
  · exact resampleBy_studySum _ 1 (by norm_num) df hq (fun r s => one_dvd _)

/-- Witness for C3's amended statement: two records three weeks apart with
study-hours 2 and 1.5 (both exact hundredths). -/
theorem C3_rollup_lossless_witness :
    ((weekly_summary [⟨0, 8, 2, [], [], none, 5⟩, ⟨21, 7, 3/2, [], [], none, 6⟩]).map
        (·.studySum)).sum
      = (([⟨0, 8, 2, [], [], none, 5⟩, ⟨21, 7, 3/2, [], [], none, 6⟩] : List Rec).map
        (·.study_hours)).sum ∧
    ((monthly_summary [⟨0, 8, 2, [], [], none, 5⟩, ⟨21, 7, 3/2, [], [], none, 6⟩]).map
        (·.studySum)).sum
      = (([⟨0, 8, 2, [], [], none, 5⟩, ⟨21, 7, 3/2, [], [], none, 6⟩] : List Rec).map
        (·.study_hours)).sum ∧
    weekly_summary [] = [] ∧ monthly_summary [] = [] :=
  C3_rollup_lossless [⟨0, 8, 2, [], [], none, 5⟩, ⟨21, 7, 3/2, [], [], none, 6⟩]
    (by
      intro r hr
      rcases List.mem_cons.1 hr with rfl | hr2
      · exact ⟨200, by norm_num⟩
      · rcases List.mem_cons.1 hr2 with rfl | h3
        · exact ⟨150, by norm_num⟩
        · cases h3)
